import Mathlib

/-!
Shallow embedding of `src/streamlit_app.py` (a small day-planner).

The program's logic:
* `validate_time_format` — `re.match(r"^(2[0-3]|[01]?[0-9]):([0-5][0-9])$", s)`.
  Python's `$` (non-MULTILINE) matches at the end of the string or just before a
  single trailing newline, so the accepted language is the regex body optionally
  followed by one final `\n`.
* `calculate_duration` — parses both strings with `datetime.strptime(_, "%H:%M")`
  (which raises `ValueError` on any unconverted trailing characters, modelled as
  `Option`), adds one day to the end when `end < start` (strict), and returns
  `(end - start).seconds // 60`.
* `add_activity` — the form-submit handler: empty-name check, then time-format
  check, then the plain lexicographic string comparison `start_time >= end_time`,
  and only then appends the record and reports success.
* `prioritize_activities` — `list.sort(key=duration, reverse=True)`, a stable
  descending sort, modelled with `List.mergeSort`.
* `summary_and_reassurance` — count-based message tiers plus break tips.
* `main` — the sidebar dispatcher.
-/

namespace DayMaster

/-- Digit value of a character (only meaningful when `c.isDigit`). -/
def digitVal (c : Char) : Nat := c.toNat - 48

/-- Whether a character is in the regex class `[0-5]`. -/
def isMinHigh (c : Char) : Bool := decide ('0' ≤ c) && decide (c ≤ '5')

/-- The body of the validator's regex, `(2[0-3]|[01]?[0-9]):([0-5][0-9])`,
matched against the whole character list. The hour is one digit (`[01]?` empty,
then `[0-9]`) or two (`2[0-3]` or `[01][0-9]`); the minute is exactly two
digits with the first in `[0-5]`. -/
def timeBody : List Char → Bool
  | [h, ':', m1, m2] => h.isDigit && isMinHigh m1 && m2.isDigit
  | [h1, h2, ':', m1, m2] =>
      ((h1 == '2' && decide ('0' ≤ h2) && decide (h2 ≤ '3')) ||
        ((h1 == '0' || h1 == '1') && h2.isDigit))
      && isMinHigh m1 && m2.isDigit
  | _ => false

/-- `validate_time_format` from the source:
`bool(re.match(r"^(2[0-3]|[01]?[0-9]):([0-5][0-9])$", time_str))`.
In Python (non-MULTILINE) `$` also matches just before a final newline, so a
string whose body matches and that ends in exactly one extra `\n` is accepted. -/
def validate_time_format (s : String) : Bool :=
  timeBody s.data ||
    (match s.data.getLast? with
      | some c => c == '\n' && timeBody s.data.dropLast
      | none => false)

/-- `datetime.strptime(s, "%H:%M")`, returning the hour and minute, and `none`
where Python raises `ValueError`. The `_strptime` regex for `%H` is
`2[0-3]|[0-1]\d|\d` (value 0–23, one or two digits) and for `%M` is
`[0-5]\d|\d` (value 0–59, one or two digits); the parse fails if any
characters remain unconverted. -/
def strptime_HM (s : String) : Option (Nat × Nat) :=
  match s.data with
  | [h, ':', m] =>
      if h.isDigit && m.isDigit then some (digitVal h, digitVal m) else none
  | [h, ':', m1, m2] =>
      if h.isDigit && m1.isDigit && m2.isDigit &&
          decide (10 * digitVal m1 + digitVal m2 ≤ 59) then
        some (digitVal h, 10 * digitVal m1 + digitVal m2)
      else none
  | [h1, h2, ':', m] =>
      if h1.isDigit && h2.isDigit && m.isDigit &&
          decide (10 * digitVal h1 + digitVal h2 ≤ 23) then
        some (10 * digitVal h1 + digitVal h2, digitVal m)
      else none
  | [h1, h2, ':', m1, m2] =>
      if h1.isDigit && h2.isDigit && m1.isDigit && m2.isDigit &&
          decide (10 * digitVal h1 + digitVal h2 ≤ 23) &&
          decide (10 * digitVal m1 + digitVal m2 ≤ 59) then
        some (10 * digitVal h1 + digitVal h2, 10 * digitVal m1 + digitVal m2)
      else none
  | _ => none

/-- `calculate_duration` from the source. Both strings are parsed with
`strptime`; both parsed values lie on the same reference date, so the
comparison `end < start` of the two datetimes is the comparison of their
minutes-of-day. When `end < start` (strictly) a day is added to `end`.
The result `(end - start).seconds // 60` of the now nonnegative, sub-one-day
timedelta is its total number of minutes. `none` models a `ValueError`
escaping from `strptime`. -/
def calculate_duration (start_time end_time : String) : Option Nat := do
  let s ← strptime_HM start_time
  let e ← strptime_HM end_time
  let startMin := s.1 * 60 + s.2
  let endMin := e.1 * 60 + e.2
  let endMin := if endMin < startMin then endMin + 1440 else endMin
  return ((endMin - startMin) * 60) / 60

/-- One record of `st.session_state.activities` (the dict built in
`add_activity`). -/
structure Activity where
  name : String
  start_time : String
  end_time : String
  priority : String
  duration : Nat
deriving DecidableEq, Repr

/-- A user-visible message emitted by the app. Constructors stand for the
fixed strings passed to `st.warning` / `st.error` / `st.success` / `st.info`
/ `st.write` in the source; `added` carries the activity named by the success
message, `line` stands for the per-activity listing block, and `valueError`
marks the uncaught `ValueError` raised by `strptime` (no message, the app
crashes). -/
inductive Msg
  /-- "Please enter an activity name." -/
  | warningName
  /-- "Please enter valid start and end times in HH:MM format." -/
  | errorFormat
  /-- "Start time must be earlier than end time." -/
  | errorOrder
  /-- success message naming the activity just appended -/
  | added (a : Activity)
  /-- uncaught ValueError from strptime -/
  | valueError
  /-- "Total Activities Planned: n" -/
  | totalCount (n : Nat)
  /-- "No activities planned? Use this time to relax, reflect, or set some goals!" -/
  | relax
  /-- the tier for 1 to 3 activities -/
  | greatStart
  /-- the tier for 4 to 6 activities -/
  | productive
  /-- the tier for more than 6 activities -/
  | packed
  /-- "Recommended Breaks" -/
  | breaksHeader
  /-- the coffee-break tip line -/
  | breakTip1
  /-- the stretch tip line -/
  | breakTip2
  /-- the listing block for one activity -/
  | line (a : Activity)
  /-- "No activities added yet. ..." (View Activities placeholder) -/
  | viewPlaceholder
  /-- "No activities to prioritize yet. Start by adding some!" -/
  | prioritizePlaceholder
deriving DecidableEq, Repr

/-- Python's `<` on strings: plain lexicographic comparison of the code-point
sequences — elementwise by code point, a strict prefix comparing below any
extension. `s >= t` in Python is `pyStrLt s.data t.data = false`. -/
def pyStrLt : List Char → List Char → Bool
  | [], [] => false
  | [], _ :: _ => true
  | _ :: _, [] => false
  | a :: as, b :: bs =>
    if a.toNat < b.toNat then true
    else if b.toNat < a.toNat then false
    else pyStrLt as bs

/-- The submitted branch of `add_activity` from the source: the three checks
in order (empty name; either time failing the validator; the plain string
comparison `start_time >= end_time`, i.e. `pyStrLt` failing), then the
append of the new record and the success message. The dict literal evaluates
`calculate_duration` before appending, so a `ValueError` there leaves the
list untouched. -/
def add_activity (activity_name start_time end_time priority : String)
    (acts : List Activity) : List Activity × Msg :=
  if activity_name = "" then (acts, .warningName)
  else if !(validate_time_format start_time && validate_time_format end_time) then
    (acts, .errorFormat)
  else if ! pyStrLt start_time.data end_time.data then (acts, .errorOrder)
  else
    match calculate_duration start_time end_time with
    | some d =>
        let a : Activity :=
          ⟨activity_name, start_time, end_time, priority, d⟩
        (acts ++ [a], .added a)
    | none => (acts, .valueError)

/-- `display_activities` from the source: one listing block per activity, or
the informational placeholder when the list is empty. -/
def display_activities (acts : List Activity) : List Msg :=
  if acts.isEmpty then [.viewPlaceholder] else acts.map .line

/-- The comparison under which Python's
`sort(key=lambda x: x["duration"], reverse=True)` arranges the list:
`a` may precede `b` exactly when `a`'s duration is at least `b`'s. Python's
sort is stable and `reverse=True` does not disturb ties, so the result is the
stable sort under this total preorder, modelled with `List.mergeSort`. -/
def durGE (a b : Activity) : Bool := Nat.ble b.duration a.duration

/-- `prioritize_activities` from the source: the destructive stable sort of
the session by duration, descending, followed by one listing block per
activity. Returns the reordered session and the rendered lines. -/
def prioritize_activities (acts : List Activity) : List Activity × List Msg :=
  let sorted := acts.mergeSort durGE
  (sorted, sorted.map .line)

/-- `summary_and_reassurance` from the source: the count line, then exactly
one of the four tier messages picked by the `if/elif` chain on the count,
then the breaks header and the two tips when the count is positive. Reads the
session only through its length and returns messages only. -/
def summary_and_reassurance (acts : List Activity) : List Msg :=
  let total := acts.length
  [Msg.totalCount total] ++
    [if total = 0 then Msg.relax
     else if total ≤ 3 then Msg.greatStart
     else if total ≤ 6 then Msg.productive
     else Msg.packed] ++
    (if 0 < total then [Msg.breaksHeader, Msg.breakTip1, Msg.breakTip2] else [])

/-- The sidebar pages of `main`. -/
inductive Page
  | addNewActivity
  | viewActivities
  | prioritizeSummarize
deriving DecidableEq, Repr

/-- One interaction of `main` from the source: the radio selection dispatches
to the page handlers. On the add page, `form` is the submitted
`(name, start, end, priority)` tuple, or `none` when the form was only
rendered. On the prioritize-and-summarize page, a truthiness test on the list
guards both the sort and the summary; an empty session only shows the
informational placeholder. Returns the session after the interaction and the
messages shown. -/
def main (page : Page) (form : Option (String × String × String × String))
    (acts : List Activity) : List Activity × List Msg :=
  match page with
  | .addNewActivity =>
      match form with
      | none => (acts, [])
      | some (n, s, e, p) =>
          let r := add_activity n s e p acts
          (r.1, [r.2])
  | .viewActivities => (acts, display_activities acts)
  | .prioritizeSummarize =>
      if acts.isEmpty then (acts, [.prioritizePlaceholder])
      else
        let r := prioritize_activities acts
        (r.1, r.2 ++ summary_and_reassurance r.1)

/-- Sessions reachable from the empty initial session through the program's
two mutating operations: a form submission (any raw strings) and the
prioritization sort. -/
inductive Reachable : List Activity → Prop
  | nil : Reachable []
  | submit (n s e p : String) {acts : List Activity} :
      Reachable acts → Reachable (add_activity n s e p acts).1
  | sort {acts : List Activity} :
      Reachable acts → Reachable (acts.mergeSort durGE)

/-- Modelled from the spec: the data-model pattern
`([01][0-9]|2[0-3]):[0-5][0-9]` for stored times — a two-digit hour, matched
exactly against the whole string (claim C3). -/
def specTwoDigitTime (s : String) : Bool :=
  match s.data with
  | [h1, h2, ':', m1, m2] =>
      (((h1 == '0' || h1 == '1') && h2.isDigit) ||
        (h1 == '2' && decide ('0' ≤ h2) && decide (h2 ≤ '3')))
      && isMinHigh m1 && m2.isDigit
  | _ => false

/-- Modelled from the spec: the claim's reading of the validator — an hour
0–23 written with one or two digits where the two-digit spellings are `00`
to `23`, a colon, and a two-digit minute `00` to `59` — stated by value, as
an entire-match with nothing before or after (claim C7). -/
def claimBody : List Char → Bool
  | [h, ':', m1, m2] =>
      h.isDigit && m1.isDigit && m2.isDigit &&
        decide (10 * digitVal m1 + digitVal m2 ≤ 59)
  | [h1, h2, ':', m1, m2] =>
      h1.isDigit && h2.isDigit && m1.isDigit && m2.isDigit &&
        decide (10 * digitVal h1 + digitVal h2 ≤ 23) &&
        decide (10 * digitVal m1 + digitVal m2 ≤ 59)
  | _ => false

/-- Modelled from the spec: `claimBody` applied to a whole string (claim C7). -/
def claimTimeFormat (s : String) : Bool := claimBody s.data

/-! Bridge lemmas between character classes and code-point arithmetic. -/

theorem char_le_iff (a b : Char) : a ≤ b ↔ a.toNat ≤ b.toNat := Iff.rfl

theorem char_eq_iff (c d : Char) : c = d ↔ c.toNat = d.toNat :=
  ⟨fun h => h ▸ rfl, fun h =>
    Char.eq_of_val_eq (UInt32.eq_of_toBitVec_eq (BitVec.eq_of_toNat_eq h))⟩

theorem isDigit_iff (c : Char) : c.isDigit = true ↔ 48 ≤ c.toNat ∧ c.toNat ≤ 57 := by
  simp only [Char.isDigit, Bool.and_eq_true, decide_eq_true_iff]
  exact Iff.rfl

theorem digitVal_eq (c : Char) : digitVal c = c.toNat - 48 := rfl

/-- The regex body of the validator agrees with the by-value reading of the
claim: both accept exactly hour 0–23 (two-digit spellings `00`–`23`), a
colon, and a two-digit minute `00`–`59`. -/
theorem timeBody_iff_claimBody (l : List Char) :
    timeBody l = true ↔ claimBody l = true := by
  unfold timeBody
  split
  · next h m1 m2 =>
    simp only [claimBody, isMinHigh, Bool.and_eq_true, decide_eq_true_iff,
      isDigit_iff, char_le_iff, digitVal_eq]
    rw [show ('0' : Char).toNat = 48 from rfl, show ('5' : Char).toNat = 53 from rfl]
    omega
  · next h1 h2 m1 m2 =>
    simp only [claimBody, isMinHigh, Bool.and_eq_true, Bool.or_eq_true,
      decide_eq_true_iff, beq_iff_eq, isDigit_iff, char_le_iff, char_eq_iff,
      digitVal_eq]
    rw [show ('0' : Char).toNat = 48 from rfl, show ('1' : Char).toNat = 49 from rfl,
      show ('2' : Char).toNat = 50 from rfl, show ('3' : Char).toNat = 51 from rfl,
      show ('5' : Char).toNat = 53 from rfl]
    omega
  · next hne1 hne2 =>
    have hfalse : claimBody l = false := by
      unfold claimBody
      split
      · next h m1 m2 => exact absurd rfl (hne1 h m1 m2)
      · next h1 h2 m1 m2 => exact absurd rfl (hne2 h1 h2 m1 m2)
      · rfl
    simp [hfalse]

/-- `validate_time_format` accepts exactly the claim's language, plus the
same strings with one extra trailing newline (Python's `$`). -/
theorem validate_iff_claim (s : String) :
    validate_time_format s = true ↔
      (claimTimeFormat s = true ∨
        ∃ t : String, s = t.push '\n' ∧ claimTimeFormat t = true) := by
  unfold validate_time_format claimTimeFormat
  constructor
  · intro h
    rw [Bool.or_eq_true] at h
    rcases h with h | h
    · exact Or.inl ((timeBody_iff_claimBody _).mp h)
    · right
      cases hl : s.data.getLast? with
      | none => rw [hl] at h; cases h
      | some c =>
        rw [hl] at h
        simp only [Bool.and_eq_true, beq_iff_eq] at h
        obtain ⟨rfl, hb⟩ := h
        obtain ⟨ys, hdata⟩ := List.getLast?_eq_some_iff.mp hl
        refine ⟨⟨ys⟩, ?_, ?_⟩
        · exact String.ext (by simpa [String.push] using hdata)
        · rw [hdata] at hb
          simpa [List.dropLast_concat] using (timeBody_iff_claimBody _).mp hb
  · rintro (h | ⟨t, rfl, ht⟩)
    · rw [Bool.or_eq_true]
      exact Or.inl ((timeBody_iff_claimBody _).mpr h)
    · rw [Bool.or_eq_true]
      right
      have hdata : (t.push '\n').data = t.data ++ ['\n'] := by simp [String.push]
      rw [hdata, List.getLast?_concat]
      simp [List.dropLast_concat, (timeBody_iff_claimBody _).mpr ht]

/-- A successful `strptime` parse yields an hour at most 23 and a minute at
most 59. -/
theorem strptime_HM_bounds {s : String} {h m : Nat}
    (hp : strptime_HM s = some (h, m)) : h ≤ 23 ∧ m ≤ 59 := by
  unfold strptime_HM at hp
  split at hp
  · next c1 c2 =>
    split at hp
    · next hcond =>
      simp only [Bool.and_eq_true, isDigit_iff] at hcond
      simp only [Option.some.injEq, Prod.mk.injEq] at hp
      obtain ⟨rfl, rfl⟩ := hp
      simp only [digitVal_eq]
      omega
    · exact absurd hp (by simp)
  · next c1 c2 c3 =>
    split at hp
    · next hcond =>
      simp only [Bool.and_eq_true, decide_eq_true_iff, isDigit_iff] at hcond
      simp only [Option.some.injEq, Prod.mk.injEq] at hp
      obtain ⟨rfl, rfl⟩ := hp
      simp only [digitVal_eq] at *
      omega
    · exact absurd hp (by simp)
  · next c1 c2 c3 =>
    split at hp
    · next hcond =>
      simp only [Bool.and_eq_true, decide_eq_true_iff, isDigit_iff] at hcond
      simp only [Option.some.injEq, Prod.mk.injEq] at hp
      obtain ⟨rfl, rfl⟩ := hp
      simp only [digitVal_eq] at *
      omega
    · exact absurd hp (by simp)
  · next c1 c2 c3 c4 =>
    split at hp
    · next hcond =>
      simp only [Bool.and_eq_true, decide_eq_true_iff, isDigit_iff] at hcond
      simp only [Option.some.injEq, Prod.mk.injEq] at hp
      obtain ⟨rfl, rfl⟩ := hp
      simp only [digitVal_eq] at *
      omega
    · exact absurd hp (by simp)
  · exact absurd hp (by simp)

/-- Unfolding of `calculate_duration` on two successful parses. -/
theorem calculate_duration_eq {s e : String} {hs ms he me : Nat}
    (h1 : strptime_HM s = some (hs, ms)) (h2 : strptime_HM e = some (he, me)) :
    calculate_duration s e =
      some (if he * 60 + me < hs * 60 + ms
            then he * 60 + me + 1440 - (hs * 60 + ms)
            else he * 60 + me - (hs * 60 + ms)) := by
  unfold calculate_duration
  rw [h1, h2]
  simp only [Option.bind_eq_bind, Option.some_bind, Option.pure_def]
  have hq : ∀ x : Nat, x * 60 / 60 = x := fun x => by omega
  rw [hq]
  split
  · rfl
  · rfl

/-! Branch lemmas for the submit handler. -/

theorem add_activity_empty_name (s e p : String) (acts : List Activity) :
    add_activity "" s e p acts = (acts, .warningName) := by
  unfold add_activity
  rw [if_pos rfl]

theorem add_activity_bad_format {n s e p : String} {acts : List Activity}
    (hn : n ≠ "")
    (hv : (validate_time_format s && validate_time_format e) = false) :
    add_activity n s e p acts = (acts, .errorFormat) := by
  unfold add_activity
  rw [if_neg hn, if_pos (by rw [hv]; rfl)]

theorem add_activity_bad_order {n s e p : String} {acts : List Activity}
    (hn : n ≠ "") (hs : validate_time_format s = true)
    (he : validate_time_format e = true)
    (ho : pyStrLt s.data e.data = false) :
    add_activity n s e p acts = (acts, .errorOrder) := by
  unfold add_activity
  rw [if_neg hn, if_neg (by simp [hs, he]), if_pos (by rw [ho]; rfl)]

theorem add_activity_success {n s e p : String} {acts : List Activity}
    (hn : n ≠ "") (hs : validate_time_format s = true)
    (he : validate_time_format e = true)
    (ho : pyStrLt s.data e.data = true) {d : Nat}
    (hd : calculate_duration s e = some d) :
    add_activity n s e p acts =
      (acts ++ [⟨n, s, e, p, d⟩], .added ⟨n, s, e, p, d⟩) := by
  unfold add_activity
  rw [if_neg hn, if_neg (by simp [hs, he]), if_neg (by simp [ho]), hd]

theorem add_activity_parse_failure {n s e p : String} {acts : List Activity}
    (hn : n ≠ "") (hs : validate_time_format s = true)
    (he : validate_time_format e = true)
    (ho : pyStrLt s.data e.data = true)
    (hd : calculate_duration s e = none) :
    add_activity n s e p acts = (acts, .valueError) := by
  unfold add_activity
  rw [if_neg hn, if_neg (by simp [hs, he]), if_neg (by simp [ho]), hd]

/-- Every run of the submit handler either leaves the session untouched or
appends one record whose times passed the validator and whose stored
duration came from `calculate_duration`. -/
theorem add_activity_cases (n s e p : String) (acts : List Activity) :
    (add_activity n s e p acts).1 = acts ∨
    ∃ d, validate_time_format s = true ∧ validate_time_format e = true ∧
      calculate_duration s e = some d ∧
      add_activity n s e p acts =
        (acts ++ [⟨n, s, e, p, d⟩], .added ⟨n, s, e, p, d⟩) := by
  by_cases hn : n = ""
  · subst hn; rw [add_activity_empty_name]; exact Or.inl rfl
  · cases hb : (validate_time_format s && validate_time_format e) with
    | false => rw [add_activity_bad_format hn hb]; exact Or.inl rfl
    | true =>
      obtain ⟨hs, he⟩ := Bool.and_eq_true_iff.mp hb
      cases ho : pyStrLt s.data e.data with
      | false => rw [add_activity_bad_order hn hs he ho]; exact Or.inl rfl
      | true =>
        cases hd : calculate_duration s e with
        | none => rw [add_activity_parse_failure hn hs he ho hd]; exact Or.inl rfl
        | some d =>
          exact Or.inr ⟨d, hs, he, rfl, add_activity_success hn hs he ho hd⟩

/-- Any activity in the session after a submit was already there, or has
times accepted by the validator. -/
theorem add_activity_mem {n s e p : String} {acts : List Activity}
    {a : Activity} (ha : a ∈ (add_activity n s e p acts).1) :
    a ∈ acts ∨
      (validate_time_format a.start_time = true ∧
        validate_time_format a.end_time = true) := by
  rcases add_activity_cases n s e p acts with h | ⟨d, hs, he, _, h⟩
  · rw [h] at ha; exact Or.inl ha
  · rw [h] at ha
    rcases List.mem_append.mp ha with h' | h'
    · exact Or.inl h'
    · right
      have : a = ⟨n, s, e, p, d⟩ := by simpa using h'
      subst this
      exact ⟨hs, he⟩

/-- The ordering rejection occurs exactly under the conditions of claim C2. -/
theorem add_activity_errorOrder_iff (n s e p : String) (acts : List Activity) :
    (add_activity n s e p acts).2 = .errorOrder ↔
      (n ≠ "" ∧ validate_time_format s = true ∧
        validate_time_format e = true ∧ pyStrLt s.data e.data = false) := by
  constructor
  · intro h
    by_cases hn : n = ""
    · subst hn; rw [add_activity_empty_name] at h; cases h
    · cases hb : (validate_time_format s && validate_time_format e) with
      | false => rw [add_activity_bad_format hn hb] at h; cases h
      | true =>
        obtain ⟨hs, he⟩ := Bool.and_eq_true_iff.mp hb
        cases ho : pyStrLt s.data e.data with
        | false => exact ⟨hn, hs, he, rfl⟩
        | true =>
          cases hd : calculate_duration s e with
          | none => rw [add_activity_parse_failure hn hs he ho hd] at h; cases h
          | some d => rw [add_activity_success hn hs he ho hd] at h; cases h
  · rintro ⟨hn, hs, he, ho⟩
    rw [add_activity_bad_order hn hs he ho]

/-! Lemmas about the rendering functions and the dispatcher. -/

theorem add_activity_snd_ne_relax (n s e p : String) (acts : List Activity) :
    (add_activity n s e p acts).2 ≠ .relax := by
  unfold add_activity
  split
  · simp
  · split
    · simp
    · split
      · simp
      · split
        · simp
        · simp

theorem relax_not_mem_display (acts : List Activity) :
    Msg.relax ∉ display_activities acts := by
  intro h
  unfold display_activities at h
  split at h <;> simp_all

theorem relax_not_mem_summary {acts : List Activity} (h : acts ≠ []) :
    Msg.relax ∉ summary_and_reassurance acts := by
  have hlen : acts.length ≠ 0 := fun hh => h (List.length_eq_zero.mp hh)
  intro hmem
  simp only [summary_and_reassurance] at hmem
  rw [if_neg hlen] at hmem
  simp only [List.mem_append, List.mem_singleton] at hmem
  rcases hmem with (h1 | h2) | h3
  · simp at h1
  · split at h2 <;> first
      | (split at h2 <;> simp_all)
      | simp_all
  · split at h3 <;> simp_all

theorem durGE_trans (a b c : Activity) (h1 : durGE a b = true)
    (h2 : durGE b c = true) : durGE a c = true := by
  simp only [durGE, Nat.ble_eq] at *
  omega

theorem durGE_total (a b : Activity) : (durGE a b || durGE b a) = true := by
  simp only [durGE, Bool.or_eq_true, Nat.ble_eq]
  omega

/-! The claims. -/

/-- C1, as stated, is false: the code's rollover test is the strict
`end < start`, so `calculate_duration "09:00" "09:00"` is `0`, not `1440`. -/
theorem c1_counterexample :
    calculate_duration "09:00" "09:00" = some 0 ∧
      calculate_duration "09:00" "09:00" ≠ some 1440 := by
  constructor
  · decide
  · decide

/-- C1 (amended): equality does not trigger the next-day branch; for any
input `strptime` parses, the duration from a time to itself is 0, and in
particular `calculate_duration "09:00" "09:00" = 0`. -/
theorem c1_equal_times_duration_zero :
    (∀ (s : String) (h m : Nat), strptime_HM s = some (h, m) →
        calculate_duration s s = some 0) ∧
      calculate_duration "09:00" "09:00" = some 0 := by
  constructor
  · intro s h m hp
    rw [calculate_duration_eq hp hp]
    simp
  · decide

theorem c1_witness : calculate_duration "07:15" "07:15" = some 0 :=
  c1_equal_times_duration_zero.1 "07:15" 7 15 (by decide)

/-- C2: the ordering rejection fires exactly when the name is non-empty,
both times pass the validator, and the start does not lexicographically
precede the end (Python's `start_time >= end_time`, which on the total
string order is `¬ (start < end)`); in particular the Run 23:00→01:00
submission is rejected although `calculate_duration` would return 120. -/
theorem c2_errorOrder_characterization :
    (∀ (n s e p : String) (acts : List Activity),
        (add_activity n s e p acts).2 = .errorOrder ↔
          (n ≠ "" ∧ validate_time_format s = true ∧
            validate_time_format e = true ∧ pyStrLt s.data e.data = false)) ∧
      (add_activity "Run" "23:00" "01:00" "Low" []).2 = .errorOrder ∧
      calculate_duration "23:00" "01:00" = some 120 :=
  ⟨add_activity_errorOrder_iff, by decide, by decide⟩

/-- C3, as stated, is false: the validator also accepts one-digit hours, and
`"9:00" < "9:30"` holds lexicographically, so a session holding an activity
whose times do not match the two-digit pattern `([01][0-9]|2[0-3]):[0-5][0-9]`
is reachable. -/
theorem c3_counterexample :
    Reachable (add_activity "X" "9:00" "9:30" "High" []).1 ∧
      (add_activity "X" "9:00" "9:30" "High" []).1 =
        [⟨"X", "9:00", "9:30", "High", 30⟩] ∧
      specTwoDigitTime "9:00" = false :=
  ⟨Reachable.submit "X" "9:00" "9:30" "High" Reachable.nil, by decide, by decide⟩

/-- C3 (amended): every activity ever stored in a reachable session has
start and end times accepted by `validate_time_format` (the pattern with
the optional leading hour digit, and Python's trailing-newline `$` quirk) —
not the spec's two-digit-hour pattern. -/
theorem c3_stored_times_pass_validator :
    ∀ acts : List Activity, Reachable acts →
      ∀ a ∈ acts, validate_time_format a.start_time = true ∧
        validate_time_format a.end_time = true := by
  intro acts h
  induction h with
  | nil => intro a ha; cases ha
  | submit n s e p hr ih =>
    intro a ha
    rcases add_activity_mem ha with h' | h'
    · exact ih a h'
    · exact h'
  | sort hr ih =>
    intro a ha
    exact ih a (List.mem_mergeSort.mp ha)

theorem c3_witness :
    validate_time_format "9:00" = true ∧ validate_time_format "9:30" = true :=
  c3_stored_times_pass_validator _
    (Reachable.submit "Y" "9:00" "9:30" "Low" Reachable.nil)
    ⟨"Y", "9:00", "9:30", "Low", 30⟩ (by decide)

/-- C4, as stated, is false on one point: all three checks can pass and yet
no activity be appended, because the validator accepts a trailing newline
that `strptime` then rejects with an uncaught `ValueError`. -/
theorem c4_counterexample :
    ("A" : String) ≠ "" ∧
      validate_time_format "09:00\n" = true ∧
      validate_time_format "09:30" = true ∧
      pyStrLt "09:00\n".data "09:30".data = true ∧
      add_activity "A" "09:00\n" "09:30" "High" [] = ([], .valueError) :=
  ⟨by decide, by decide, by decide, by decide, by decide⟩

/-- C4 (amended): the checks run in the fixed order empty name, time format,
lexicographic ordering, the first failure alone deciding the message (an
empty name with malformed times yields the missing-name message); when all
three pass and the duration computation succeeds, the activity is appended
with `duration = calculate_duration start end` and the success message names
it. (When the duration computation raises, nothing is appended.) -/
theorem c4_check_order_and_success :
    (∀ (s e p : String) (acts : List Activity),
        add_activity "" s e p acts = (acts, .warningName)) ∧
    (∀ (n s e p : String) (acts : List Activity), n ≠ "" →
        (validate_time_format s = false ∨ validate_time_format e = false) →
        add_activity n s e p acts = (acts, .errorFormat)) ∧
    (∀ (n s e p : String) (acts : List Activity), n ≠ "" →
        validate_time_format s = true → validate_time_format e = true →
        pyStrLt s.data e.data = false →
        add_activity n s e p acts = (acts, .errorOrder)) ∧
    (∀ (n s e p : String) (acts : List Activity) (d : Nat), n ≠ "" →
        validate_time_format s = true → validate_time_format e = true →
        pyStrLt s.data e.data = true → calculate_duration s e = some d →
        add_activity n s e p acts =
          (acts ++ [⟨n, s, e, p, d⟩], .added ⟨n, s, e, p, d⟩)) ∧
    add_activity "" "xx" "yy" "High" [] = ([], .warningName) := by
  refine ⟨add_activity_empty_name, ?_, ?_, ?_, by decide⟩
  · intro n s e p acts hn hv
    refine add_activity_bad_format hn ?_
    rcases hv with h | h <;> simp [h]
  · intro n s e p acts hn hs he ho
    exact add_activity_bad_order hn hs he ho
  · intro n s e p acts d hn hs he ho hd
    exact add_activity_success hn hs he ho hd

theorem c4_witness :
    add_activity "Run" "09:00" "10:30" "Low" [] =
      ([⟨"Run", "09:00", "10:30", "Low", 90⟩],
        .added ⟨"Run", "09:00", "10:30", "Low", 90⟩) :=
  c4_check_order_and_success.2.2.2.1 "Run" "09:00" "10:30" "Low" [] 90
    (by decide) (by decide) (by decide) (by decide) (by decide)

/-- C5: every rejection (missing name, bad format, bad ordering) leaves the
session exactly as it was; in particular the empty-name submission over a
one-element session returns that session unchanged with the missing-name
message. -/
theorem c5_rejection_unchanged :
    (∀ (n s e p : String) (acts : List Activity),
        ((add_activity n s e p acts).2 = .warningName ∨
          (add_activity n s e p acts).2 = .errorFormat ∨
          (add_activity n s e p acts).2 = .errorOrder) →
        (add_activity n s e p acts).1 = acts) ∧
      add_activity "" "09:00" "10:00" "High"
          [⟨"Walk", "07:00", "08:00", "Low", 60⟩] =
        ([⟨"Walk", "07:00", "08:00", "Low", 60⟩], .warningName) := by
  constructor
  · intro n s e p acts hrej
    rcases add_activity_cases n s e p acts with h | ⟨d, _, _, _, h⟩
    · exact h
    · rw [h] at hrej
      simp at hrej
  · decide

theorem c5_witness :
    (add_activity "x" "99:99" "10:00" "High" []).1 = [] :=
  c5_rejection_unchanged.1 "x" "99:99" "10:00" "High" []
    (Or.inr (Or.inl (by decide)))

/-- C6: prioritization is a stable descending sort by duration: the result
is a permutation of the session, durations are non-increasing, activities of
any fixed duration keep their original relative order, and the spec's
concrete [30, 90, 90, 10] example sorts to [90, 90, 30, 10] with the two
90-minute entries in their original order. -/
theorem c6_prioritize_stable_sort_desc :
    (∀ acts : List Activity, ((prioritize_activities acts).1).Perm acts) ∧
    (∀ acts : List Activity,
        List.Pairwise (fun a b : Activity => b.duration ≤ a.duration)
          (prioritize_activities acts).1) ∧
    (∀ (acts : List Activity) (d : Nat),
        ((prioritize_activities acts).1).filter (fun a => a.duration == d) =
          acts.filter (fun a => a.duration == d)) ∧
    (prioritize_activities [⟨"a", "08:00", "08:30", "Low", 30⟩,
        ⟨"b", "09:00", "10:30", "High", 90⟩, ⟨"c", "11:00", "12:30", "Low", 90⟩,
        ⟨"d", "13:00", "13:10", "Low", 10⟩]).1 =
      [⟨"b", "09:00", "10:30", "High", 90⟩, ⟨"c", "11:00", "12:30", "Low", 90⟩,
        ⟨"a", "08:00", "08:30", "Low", 30⟩, ⟨"d", "13:00", "13:10", "Low", 10⟩] := by
  refine ⟨?_, ?_, ?_, ?_⟩
  · intro acts
    exact List.mergeSort_perm acts durGE
  · intro acts
    have hs := List.sorted_mergeSort durGE_trans durGE_total acts
    exact hs.imp (fun {a b} h => by simpa [durGE, Nat.ble_eq] using h)
  · intro acts d
    set p : Activity → Bool := fun a => a.duration == d with hp
    have hsub : List.Sublist (acts.filter p) acts := List.filter_sublist acts
    have hpw : (acts.filter p).Pairwise (fun a b => durGE a b = true) := by
      refine List.pairwise_of_forall_mem_list ?_
      intro a ha b hb
      have ha' := (List.mem_filter.mp ha).2
      have hb' := (List.mem_filter.mp hb).2
      rw [hp] at ha' hb'
      simp only [beq_iff_eq] at ha' hb'
      simp [durGE, ha', hb']
    have h1 : List.Sublist (acts.filter p) (acts.mergeSort durGE) :=
      List.sublist_mergeSort durGE_trans durGE_total hpw hsub
    have h2 : List.Sublist ((acts.filter p).filter p)
        ((acts.mergeSort durGE).filter p) :=
      h1.filter p
    have h3 : (acts.filter p).filter p = acts.filter p :=
      List.filter_eq_self.mpr fun a ha => (List.mem_filter.mp ha).2
    have h4 : ((acts.mergeSort durGE).filter p).length = (acts.filter p).length :=
      ((List.mergeSort_perm acts durGE).filter p).length_eq
    rw [h3] at h2
    exact (h2.eq_of_length h4.symm).symm
  · simp [prioritize_activities, List.mergeSort, durGE]

/-- C7, as stated, is false: Python's `$` matches before a final newline, so
`validate_time_format` also accepts `"9:00\n"`, which is not of the claimed
hour-colon-minute form. -/
theorem c7_counterexample :
    validate_time_format "9:00\n" = true ∧ claimTimeFormat "9:00\n" = false :=
  ⟨by decide, by decide⟩

/-- C7 (amended): the validator returns true exactly for the claim's
language — hour 0–23 with the leading zero optional only for one-digit
spellings, colon, two-digit minute 00–59 — or such a string followed by one
trailing newline; the claim's five concrete examples all hold. -/
theorem c7_validator_language :
    (∀ s : String, validate_time_format s = true ↔
        (claimTimeFormat s = true ∨
          ∃ t : String, s = t.push '\n' ∧ claimTimeFormat t = true)) ∧
      validate_time_format "09:00" = true ∧
      validate_time_format "9:00" = true ∧
      validate_time_format "24:00" = false ∧
      validate_time_format "12:60" = false ∧
      validate_time_format "" = false :=
  ⟨validate_iff_claim, by decide, by decide, by decide, by decide, by decide⟩

/-- C8, as stated, is false on one point: an end time equal to the start
time is "not later than" it but is not moved to the following day — the
strict comparison leaves the duration at 0, not 1440. -/
theorem c8_counterexample :
    calculate_duration "12:00" "12:00" = some 0 ∧
      calculate_duration "12:00" "12:00" ≠ some 1440 :=
  ⟨by decide, by decide⟩

/-- C8 (amended): whenever the duration computation returns a value it is at
most 1439 (and non-negative, being a `Nat`); an end strictly earlier than
the start is treated as next-day; and the overnight and same-day examples
hold: 23:00→01:00 is 120 and 09:00→10:30 is 90. -/
theorem c8_duration_rollover_bounds :
    (∀ (s e : String) (d : Nat), calculate_duration s e = some d → d ≤ 1439) ∧
    (∀ (s e : String) (hs ms he me : Nat),
        strptime_HM s = some (hs, ms) → strptime_HM e = some (he, me) →
        he * 60 + me < hs * 60 + ms →
        calculate_duration s e =
          some (he * 60 + me + 1440 - (hs * 60 + ms))) ∧
    calculate_duration "23:00" "01:00" = some 120 ∧
    calculate_duration "09:00" "10:30" = some 90 := by
  refine ⟨?_, ?_, by decide, by decide⟩
  · intro s e d hd
    cases hps : strptime_HM s with
    | none => unfold calculate_duration at hd; rw [hps] at hd; simp at hd
    | some us =>
      cases hpe : strptime_HM e with
      | none => unfold calculate_duration at hd; rw [hps, hpe] at hd; simp at hd
      | some ue =>
        obtain ⟨uh, um⟩ := us
        obtain ⟨vh, vm⟩ := ue
        have hb1 := strptime_HM_bounds hps
        have hb2 := strptime_HM_bounds hpe
        rw [calculate_duration_eq hps hpe] at hd
        simp only [Option.some.injEq] at hd
        subst hd
        split <;> omega
  · intro s e hs ms he me h1 h2 hlt
    rw [calculate_duration_eq h1 h2, if_pos hlt]

theorem c8_witness : (120 : Nat) ≤ 1439 :=
  c8_duration_rollover_bounds.1 "23:00" "01:00" 120 (by decide)

/-- C9: the summary reads the session only through its count, picks exactly
one of the four tier messages (0 relax, 1–3 great start, 4–6 productive,
more than 6 packed), and appends the breaks header and two tips exactly when
the count is positive. -/
theorem c9_summary_tiers :
    (∀ acts1 acts2 : List Activity, acts1.length = acts2.length →
        summary_and_reassurance acts1 = summary_and_reassurance acts2) ∧
    (∀ acts : List Activity, acts.length = 0 →
        summary_and_reassurance acts = [.totalCount 0, .relax]) ∧
    (∀ acts : List Activity, 1 ≤ acts.length → acts.length ≤ 3 →
        summary_and_reassurance acts =
          [.totalCount acts.length, .greatStart,
            .breaksHeader, .breakTip1, .breakTip2]) ∧
    (∀ acts : List Activity, 4 ≤ acts.length → acts.length ≤ 6 →
        summary_and_reassurance acts =
          [.totalCount acts.length, .productive,
            .breaksHeader, .breakTip1, .breakTip2]) ∧
    (∀ acts : List Activity, 6 < acts.length →
        summary_and_reassurance acts =
          [.totalCount acts.length, .packed,
            .breaksHeader, .breakTip1, .breakTip2]) := by
  refine ⟨?_, ?_, ?_, ?_, ?_⟩
  · intro acts1 acts2 h
    simp only [summary_and_reassurance]
    rw [h]
  · intro acts h
    simp only [summary_and_reassurance]
    rw [h]
    rfl
  · intro acts h1 h3
    simp only [summary_and_reassurance]
    rw [if_neg (by omega), if_pos (by omega), if_pos (by omega)]
    rfl
  · intro acts h4 h6
    simp only [summary_and_reassurance]
    rw [if_neg (by omega), if_neg (by omega), if_pos (by omega),
      if_pos (by omega)]
    rfl
  · intro acts h6
    simp only [summary_and_reassurance]
    rw [if_neg (by omega), if_neg (by omega), if_neg (by omega),
      if_pos (by omega)]
    rfl

theorem c9_witness :
    summary_and_reassurance [⟨"e1", "09:00", "10:00", "High", 60⟩,
        ⟨"e2", "10:00", "11:00", "Low", 60⟩] =
      [.totalCount 2, .greatStart, .breaksHeader, .breakTip1, .breakTip2] :=
  c9_summary_tiers.2.2.1 _ (by decide) (by decide)

/-- C10: no page of the dispatcher can ever show the count-0 relax message,
and selecting Prioritize & Summarize on an empty session only shows the
informational placeholder, leaving the session untouched and invoking
neither the sort nor the summary. -/
theorem c10_relax_unreachable :
    (∀ (page : Page) (form : Option (String × String × String × String))
        (acts : List Activity),
        ((DayMaster.main page form acts).2).count Msg.relax = 0) ∧
    (∀ form : Option (String × String × String × String),
        DayMaster.main .prioritizeSummarize form ([] : List Activity) =
          ([], [.prioritizePlaceholder])) := by
  constructor
  · intro page form acts
    refine List.count_eq_zero.mpr ?_
    intro hmem
    cases page with
    | addNewActivity =>
      cases form with
      | none => simp [main] at hmem
      | some f =>
        obtain ⟨n, s, e, p⟩ := f
        simp only [main] at hmem
        have h := List.mem_singleton.mp hmem
        exact add_activity_snd_ne_relax n s e p acts h.symm
    | viewActivities =>
      exact relax_not_mem_display acts (by simpa [main] using hmem)
    | prioritizeSummarize =>
      simp only [main] at hmem
      by_cases he : acts.isEmpty
      · rw [if_pos he] at hmem
        simp at hmem
      · rw [if_neg he] at hmem
        rcases List.mem_append.mp hmem with h | h
        · simp [prioritize_activities] at h
        · have hne : (prioritize_activities acts).1 ≠ [] := by
            have hlen : ((prioritize_activities acts).1).length = acts.length :=
              List.length_mergeSort acts
            intro h0
            rw [h0] at hlen
            have : acts = [] := List.length_eq_zero.mp hlen.symm
            rw [this] at he
            exact he rfl
          exact relax_not_mem_summary hne h
  · intro form
    rfl

end DayMaster
